import Mathlib

/-! go-rate-limit: the token-bucket limiter of `pkg/rate_limiter/rate_limiter.go`.

Shallow embedding of the limiter and its operations.

Conventions of the embedding.

* `float64` values (`tickets`, `rate`, `burstMax`, `qtd`) are rationals: the
  arithmetic is exact, rounding, infinities and NaN are outside the model.
* `time.Duration` and `time.Time` are integers counting nanoseconds.
* The limiter is a value; a method with a pointer receiver returns the
  updated limiter.
* `WaitN` and `pollLoop` describe one call whose surroundings act while it
  sleeps: one `Tick` per iteration of the poll loop tells whether
  `ctx.Done()` is ready at the `select` and how much `tickets` changed
  during `time.Sleep(l.tick)`.
* `step` describes several goroutines at the grain of the mutex: a section
  between `l.mu.Lock()` and `l.mu.Unlock()` is one step, and a comparison of
  `l.tickets` made without the mutex is a step of its own, so that other
  goroutines can act between a comparison and the write that follows it.
-/

namespace RateLimiter

/-- One second in nanoseconds (`time.Second`). -/
def Second : Int := 1000000000

/-- One millisecond in nanoseconds (`time.Millisecond`). -/
def Millisecond : Int := 1000000

/-- Constant `defaultInterval = 1 * time.Second`. -/
def defaultInterval : Int := 1 * Second

/-- Constant `defaultTick = 5 * time.Millisecond`. -/
def defaultTick : Int := 5 * Millisecond

/-- Method `Duration.Seconds` of the standard library:
`sec := d / Second; nsec := d % Second; float64(sec) + float64(nsec)/1e9`,
with the truncating division and remainder of Go. -/
def Seconds (d : Int) : ℚ :=
  ((d.tdiv Second : Int) : ℚ) + ((d.tmod Second : Int) : ℚ) / 1000000000

/-- The struct `limiter` (without its mutex). -/
structure limiter where
  tickets : ℚ
  rate : ℚ
  burstMax : ℚ
  lastLiberation : Int
  interval : Int
  maxAccumulationInterval : Int
  tick : Int
  deriving DecidableEq

/-- Constructor `NewLimiter(ctx, rate)`; `now` is the value of `time.Now()`. -/
def NewLimiter (now : Int) (rate : ℚ) : limiter :=
  { rate := rate
    tickets := rate
    lastLiberation := now
    interval := defaultInterval
    maxAccumulationInterval := defaultInterval
    burstMax := rate
    tick := defaultTick }

/-- The locked section of one iteration of `liberate`: `now` is the clock
read by `time.Since(l.lastLiberation)`, `now2` the one read by the final
`time.Now()`. -/
def liberateCycle (l : limiter) (now now2 : Int) : limiter :=
  let elapsed := now - l.lastLiberation
  let elapsed := if elapsed > l.maxAccumulationInterval then l.maxAccumulationInterval else elapsed
  let l := { l with tickets := l.tickets + l.rate * Seconds elapsed }
  let l := if l.tickets > l.burstMax then { l with tickets := l.tickets + l.burstMax } else l
  { l with lastLiberation := now2 }

/-- One iteration of the loop of `liberate` as seen from outside: whether
`ctx.Done()` is ready at the `select`, and the two clock readings. -/
structure Cycle where
  cancelled : Bool
  now : Int
  now2 : Int
  deriving DecidableEq

/-- The loop of `liberate`: it runs cycles until the context is done; the
result is the limiter it leaves and whether it returned (`ctx.Err()`). -/
def liberate (l : limiter) : List Cycle → limiter × Bool
  | [] => (l, false)
  | c :: cs => if c.cancelled then (l, true) else liberate (liberateCycle l c.now c.now2) cs

/-- The two errors `WaitN` returns: `errors.New("burst max exceeded")` and
`ctx.Err()`. -/
inductive WaitError where
  | burstMaxExceeded
  | ctxErr
  deriving DecidableEq

/-- One iteration of the poll loop of `WaitN` as seen from outside: whether
`ctx.Done()` is ready at the `select`, and the change of `tickets` made by
other goroutines during `time.Sleep(l.tick)`. -/
structure Tick where
  cancelled : Bool
  credit : ℚ
  deriving DecidableEq

/-- What a returned call of `WaitN` leaves: the limiter, the error (`none`
is `nil`), and the list of amounts the call subtracted from `tickets`, in
order (a record kept for the proofs, the code has no such list). -/
structure WaitResult where
  l : limiter
  err : Option WaitError
  taken : List ℚ
  deriving DecidableEq

/-- The `if/else` after `time.Sleep(l.tick)` in the poll loop: either the
remainder `qtd - counterTickets` is subtracted and the call returns
(`none`), or the whole bucket is absorbed into `counterTickets` and the
loop goes on with the new counter (`some`).  The second component is the
amount subtracted from `tickets`. -/
def pollBody (l : limiter) (qtd counterTickets : ℚ) : limiter × ℚ × Option ℚ :=
  if l.tickets ≥ qtd - counterTickets then
    ({ l with tickets := l.tickets - (qtd - counterTickets) }, qtd - counterTickets, none)
  else
    ({ l with tickets := 0 }, l.tickets, some (counterTickets + l.tickets))

/-- The poll loop of `WaitN`, one `Tick` per iteration.  `none`: the ticks
given ran out while the call was still polling. -/
def pollLoop (l : limiter) (qtd counterTickets : ℚ) : List Tick → Option WaitResult
  | [] => none
  | t :: ts =>
    if t.cancelled then some ⟨l, some WaitError.ctxErr, []⟩
    else
      let l1 := { l with tickets := l.tickets + t.credit }
      match pollBody l1 qtd counterTickets with
      | (l2, amount, none) => some ⟨l2, none, [amount]⟩
      | (l2, amount, some c) =>
        (pollLoop l2 qtd c ts).map fun r => { r with taken := amount :: r.taken }

/-- Method `WaitN(ctx, qtd)`. -/
def WaitN (l : limiter) (qtd : ℚ) (ticks : List Tick) : Option WaitResult :=
  if qtd > l.burstMax then some ⟨l, some WaitError.burstMaxExceeded, []⟩
  else if l.tickets ≥ qtd then some ⟨{ l with tickets := l.tickets - qtd }, none, [qtd]⟩
  else pollLoop l qtd 0 ticks

/-- Method `Wait(ctx)`. -/
def Wait (l : limiter) (ticks : List Tick) : Option WaitResult :=
  WaitN l 1 ticks

/-- Method `SetMaxAccumulationInterval`. -/
def SetMaxAccumulationInterval (l : limiter) (d : Int) : limiter :=
  { l with maxAccumulationInterval := d }

/-- Method `SetRate`. -/
def SetRate (l : limiter) (rate : ℚ) : limiter :=
  { l with rate := rate }

/-- Method `SetBurstMax`. -/
def SetBurstMax (l : limiter) (burstMax : ℚ) : limiter :=
  { l with burstMax := burstMax }

/-- Method `SetInterval`. -/
def SetInterval (l : limiter) (interval : Int) : limiter :=
  { l with interval := interval }

/-- Method `SetTick`. -/
def SetTick (l : limiter) (tick : Int) : limiter :=
  { l with tick := tick }

/-- Method `GetRate`. -/
def GetRate (l : limiter) : ℚ := l.rate

/-- Method `GetBurstMax`. -/
def GetBurstMax (l : limiter) : ℚ := l.burstMax

/-- Method `GetInterval`. -/
def GetInterval (l : limiter) : Int := l.interval

/-- Method `GetMaxAccumulationInterval`. -/
def GetMaxAccumulationInterval (l : limiter) : Int := l.maxAccumulationInterval

/-- Method `GetTickets`. -/
def GetTickets (l : limiter) : ℚ := l.tickets

/-- Method `GetLastLiberation`. -/
def GetLastLiberation (l : limiter) : Int := l.lastLiberation

/-- Method `GetTick`. -/
def GetTick (l : limiter) : Int := l.tick

/-- Where a call of `WaitN` stands between two of its atomic steps. The
comparisons of `l.tickets` are made without the mutex, the writes with it,
so a comparison and the write that follows it are two steps. -/
inductive Pc where
  | check
  | fastLocked
  | loop
  | compare
  | takeLocked
  | absorbLocked
  deriving DecidableEq

/-- The local state of a call of `WaitN` that has passed the burst check:
its argument `qtd`, its variable `counterTickets` (0 until the poll loop
changes it) and the place it stands at:
`check` before `if l.tickets >= qtd`,
`fastLocked` before the locked `l.tickets -= qtd`,
`loop` at the `select` of the poll loop,
`compare` after `time.Sleep(l.tick)`, before
`if l.tickets >= (qtd - counterTickets)`,
`takeLocked` before the locked `l.tickets -= (qtd - counterTickets)`,
`absorbLocked` before the locked
`counterTickets = counterTickets + l.tickets; l.tickets = 0`. -/
structure Waiter where
  qtd : ℚ
  counterTickets : ℚ
  pc : Pc
  deriving DecidableEq

/-- The limiter together with the calls of `WaitN` that have not returned. -/
structure System where
  l : limiter
  waiters : List Waiter
  deriving DecidableEq

/-- The next atomic step of a call of `WaitN`: the limiter it leaves and
the call's new local state, `none` when the call returns. `cancelled` tells
whether `ctx.Done()` is ready when the call is at its `select`. -/
def advance (l : limiter) (w : Waiter) (cancelled : Bool) : limiter × Option Waiter :=
  match w.pc with
  | .check =>
    (l, some { w with pc := if l.tickets ≥ w.qtd then .fastLocked else .loop })
  | .fastLocked => ({ l with tickets := l.tickets - w.qtd }, none)
  | .loop => if cancelled then (l, none) else (l, some { w with pc := .compare })
  | .compare =>
    (l, some { w with
      pc := if l.tickets ≥ w.qtd - w.counterTickets then .takeLocked else .absorbLocked })
  | .takeLocked => ({ l with tickets := l.tickets - (w.qtd - w.counterTickets) }, none)
  | .absorbLocked =>
    ({ l with tickets := 0 },
      some { w with counterTickets := w.counterTickets + l.tickets, pc := .loop })

/-- The atomic steps of an interleaving of goroutines: the locked section
of a cycle of `liberate`, a setter, the start of a call `WaitN(ctx, qtd)`
(its burst check), and the next step of the call number `i` among those
that have not returned. -/
inductive Action where
  | liberate (now now2 : Int)
  | setRate (rate : ℚ)
  | setBurstMax (burstMax : ℚ)
  | setInterval (interval : Int)
  | setMaxAccumulationInterval (d : Int)
  | setTick (tick : Int)
  | call (qtd : ℚ)
  | advance (i : Nat) (cancelled : Bool)
  deriving DecidableEq

/-- One step of the interleaving. -/
def step (s : System) : Action → System
  | .liberate now now2 => { s with l := liberateCycle s.l now now2 }
  | .setRate rate => { s with l := SetRate s.l rate }
  | .setBurstMax burstMax => { s with l := SetBurstMax s.l burstMax }
  | .setInterval interval => { s with l := SetInterval s.l interval }
  | .setMaxAccumulationInterval d => { s with l := SetMaxAccumulationInterval s.l d }
  | .setTick tick => { s with l := SetTick s.l tick }
  | .call qtd =>
    if qtd > s.l.burstMax then s
    else { s with waiters := s.waiters ++ [⟨qtd, 0, .check⟩] }
  | .advance i cancelled =>
    match s.waiters.get? i with
    | none => s
    | some w =>
      match advance s.l w cancelled with
      | (l2, none) => { l := l2, waiters := s.waiters.eraseIdx i }
      | (l2, some w2) => { l := l2, waiters := s.waiters.set i w2 }

/-- The steps the clock and the callers are assumed to take: a cycle of
`liberate` reads a clock that is not before `lastLiberation`, and setters
get non-negative arguments. -/
def admissible (s : System) : Action → Prop
  | .liberate now _ => s.l.lastLiberation ≤ now
  | .setRate rate => 0 ≤ rate
  | .setBurstMax burstMax => 0 ≤ burstMax
  | .setInterval interval => 0 ≤ interval
  | .setMaxAccumulationInterval d => 0 ≤ d
  | .setTick tick => 0 ≤ tick
  | .call _ => True
  | .advance _ _ => True

/-- The state after a list of steps. -/
def run (s : System) : List Action → System
  | [] => s
  | a :: as => run (step s a) as

/-- The states a list of steps goes through, the first and the last
included. -/
def runStates (s : System) : List Action → List System
  | [] => [s]
  | a :: as => s :: runStates (step s a) as

/-- Every step of the list is admissible in the state it is taken from. -/
def runAdmissible (s : System) : List Action → Prop
  | [] => True
  | a :: as => admissible s a ∧ runAdmissible (step s a) as

/-- The system right after `NewLimiter(ctx, rate)`: no call is running. -/
def initial (now : Int) (rate : ℚ) : System :=
  { l := NewLimiter now rate, waiters := [] }

/-- The limiter has no negative ticket count, rate, burst cap or
accumulation cap. -/
def nonneg (l : limiter) : Prop :=
  0 ≤ l.tickets ∧ 0 ≤ l.rate ∧ 0 ≤ l.burstMax ∧ 0 ≤ l.maxAccumulationInterval

/-- Spec side of the comparison of setter chaining: "a limiter constructed
directly with those parameters", that is the constructor with the rate
given (so `tickets = rate`, as `NewLimiter` fills the bucket) and with
`burstMax` and `tick` given instead of their defaults. -/
def specDirectLimiter (now : Int) (rate burstMax : ℚ) (tick : Int) : limiter :=
  { NewLimiter now rate with burstMax := burstMax, tick := tick }

/-- Two limiters agree on every field other than `tickets`. -/
def sameButTickets (a b : limiter) : Prop :=
  a.rate = b.rate ∧ a.burstMax = b.burstMax ∧ a.interval = b.interval ∧
  a.maxAccumulationInterval = b.maxAccumulationInterval ∧ a.tick = b.tick ∧
  a.lastLiberation = b.lastLiberation

/-! ## Basic facts -/

/-- A duration in seconds is its nanosecond count divided by `10^9`. -/
theorem Seconds_eq (d : Int) : Seconds d = (d : ℚ) / 1000000000 := by
  have h := Int.tdiv_add_tmod d Second
  have hq : ((Second * d.tdiv Second + d.tmod Second : Int) : ℚ) = (d : ℚ) := by rw [h]
  push_cast at hq
  have hs : ((Second : Int) : ℚ) = 1000000000 := by simp [Second]
  rw [hs] at hq
  unfold Seconds
  rw [← hq]
  ring

/-- A non-negative duration has a non-negative number of seconds. -/
theorem Seconds_nonneg (d : Int) (h : 0 ≤ d) : 0 ≤ Seconds d := by
  rw [Seconds_eq]
  have : (0 : ℚ) ≤ (d : ℚ) := by exact_mod_cast h
  positivity

/-- A successful poll loop subtracts in total what was still missing. -/
theorem pollLoop_taken_sum (qtd : ℚ) (ticks : List Tick) :
    ∀ (l : limiter) (c : ℚ) (r : WaitResult),
      pollLoop l qtd c ticks = some r → r.err = none → r.taken.sum = qtd - c := by
  induction ticks with
  | nil => intro l c r h; simp [pollLoop] at h
  | cons t ts ih =>
    intro l c r h herr
    unfold pollLoop at h
    by_cases hc : t.cancelled = true
    · simp [hc] at h
      subst h
      simp at herr
    · simp only [hc] at h
      by_cases hp : l.tickets + t.credit ≥ qtd - c
      · simp [pollBody, hp] at h
        subst h
        simp
      · simp [pollBody, hp] at h
        obtain ⟨r1, hr1, rfl⟩ := h
        have := ih _ _ r1 hr1 (by simpa using herr)
        simp [this]
        ring

/-- The tickets a cycle of `liberate` leaves, as one expression. -/
theorem liberateCycle_tickets (l : limiter) (now now2 : Int) :
    (liberateCycle l now now2).tickets =
      if l.tickets + l.rate * Seconds (if now - l.lastLiberation > l.maxAccumulationInterval
            then l.maxAccumulationInterval else now - l.lastLiberation) > l.burstMax
      then l.tickets + l.rate * Seconds (if now - l.lastLiberation > l.maxAccumulationInterval
            then l.maxAccumulationInterval else now - l.lastLiberation) + l.burstMax
      else l.tickets + l.rate * Seconds (if now - l.lastLiberation > l.maxAccumulationInterval
            then l.maxAccumulationInterval else now - l.lastLiberation) := by
  unfold liberateCycle
  simp only []
  split_ifs <;> rfl

/-- A cycle of `liberate` writes `tickets` and `lastLiberation` only. -/
theorem liberateCycle_frame (l : limiter) (now now2 : Int) :
    (liberateCycle l now now2).rate = l.rate ∧
    (liberateCycle l now now2).burstMax = l.burstMax ∧
    (liberateCycle l now now2).interval = l.interval ∧
    (liberateCycle l now now2).maxAccumulationInterval = l.maxAccumulationInterval ∧
    (liberateCycle l now now2).tick = l.tick ∧
    (liberateCycle l now now2).lastLiberation = now2 := by
  unfold liberateCycle
  simp only []
  split_ifs <;> simp

/-- A cycle of `liberate` whose clock is not before `lastLiberation` keeps
the limiter non-negative. -/
theorem liberateCycle_nonneg (l : limiter) (now now2 : Int) (h : nonneg l)
    (hnow : l.lastLiberation ≤ now) : nonneg (liberateCycle l now now2) := by
  obtain ⟨ht, hr, hb, hm⟩ := h
  obtain ⟨fr, fb, -, fm, -, -⟩ := liberateCycle_frame l now now2
  have he : 0 ≤ (if now - l.lastLiberation > l.maxAccumulationInterval
      then l.maxAccumulationInterval else now - l.lastLiberation) := by
    split_ifs
    · exact hm
    · omega
  have hc := mul_nonneg hr (Seconds_nonneg _ he)
  refine ⟨?_, by rw [fr]; exact hr, by rw [fb]; exact hb, by rw [fm]; exact hm⟩
  rw [liberateCycle_tickets]
  generalize (if now - l.lastLiberation > l.maxAccumulationInterval
      then l.maxAccumulationInterval else now - l.lastLiberation) = e at hc
  split_ifs <;> linarith

/-- A poll loop that is still polling after the ticks `pre` and then finds
its context cancelled returns `ctx.Err()`; it has absorbed the tickets it
found and every credit of `pre`, and gives nothing back. -/
theorem pollLoop_cancel (qtd x : ℚ) (rest pre : List Tick) :
    ∀ (l : limiter) (c : ℚ), pollLoop l qtd c pre = none →
      ∃ r, pollLoop l qtd c (pre ++ ⟨true, x⟩ :: rest) = some r ∧
        r.err = some WaitError.ctxErr ∧
        r.l.tickets + r.taken.sum = l.tickets + (pre.map Tick.credit).sum ∧
        (pre ≠ [] → r.l = { l with tickets := 0 }) ∧ (pre = [] → r.l = l) := by
  induction pre with
  | nil =>
    intro l c _
    exact ⟨⟨l, some WaitError.ctxErr, []⟩, by simp [pollLoop], rfl, by simp, by simp, by simp⟩
  | cons t ts ih =>
    intro l c h
    unfold pollLoop at h
    by_cases hc : t.cancelled = true
    · simp [hc] at h
    · simp only [hc] at h
      by_cases hp : l.tickets + t.credit ≥ qtd - c
      · simp [pollBody, hp] at h
      · simp [pollBody, hp] at h
        obtain ⟨r, hr, herr, hsum, hne, hnil⟩ := ih _ _ h
        refine ⟨{ r with taken := (l.tickets + t.credit) :: r.taken }, ?_, herr, ?_, ?_, by simp⟩
        · simp [pollLoop, hc, pollBody, hp, hr]
        · simp at hsum ⊢
          linarith
        · intro _
          by_cases hts : ts = []
          · simpa using hnil hts
          · simpa using hne hts

/-- With no credit a poll loop that lacks tickets never succeeds: after
`n + 1` polls and a cancellation the bucket is empty, the tickets found at
the first poll are gone, and the later polls found nothing. -/
theorem pollLoop_no_credit_cancel (qtd x : ℚ) (rest : List Tick) (n : Nat) :
    ∀ (l : limiter) (c : ℚ), l.tickets < qtd - c →
      pollLoop l qtd c (List.replicate (n + 1) ⟨false, 0⟩ ++ ⟨true, x⟩ :: rest) =
        some ⟨{ l with tickets := 0 }, some WaitError.ctxErr,
          l.tickets :: List.replicate n 0⟩ := by
  induction n with
  | zero =>
    intro l c h
    simp [pollLoop, pollBody, not_le.mpr h]
  | succ n ih =>
    intro l c h
    have h2 : ({ l with tickets := 0 } : limiter).tickets < qtd - (c + l.tickets) := by
      simp only []
      linarith
    have ih2 := ih _ _ h2
    rw [List.replicate_succ, List.cons_append] at ih2 ⊢
    rw [pollLoop]
    simp [pollBody, not_le.mpr h, ih2, List.replicate_succ]

/-- The poll loop returns `nil` or `ctx.Err()`, never the burst error. -/
theorem pollLoop_err (qtd : ℚ) (ticks : List Tick) :
    ∀ (l : limiter) (c : ℚ) (r : WaitResult), pollLoop l qtd c ticks = some r →
      r.err = none ∨ r.err = some WaitError.ctxErr := by
  induction ticks with
  | nil => intro l c r h; simp [pollLoop] at h
  | cons t ts ih =>
    intro l c r h
    unfold pollLoop at h
    by_cases hc : t.cancelled = true
    · simp [hc] at h
      subst h
      exact Or.inr rfl
    · simp only [hc] at h
      by_cases hp : l.tickets + t.credit ≥ qtd - c
      · simp [pollBody, hp] at h
        subst h
        exact Or.inl rfl
      · simp [pollBody, hp] at h
        obtain ⟨r1, hr1, rfl⟩ := h
        simpa using ih _ _ r1 hr1

/-- The poll loop writes `tickets` only. -/
theorem pollLoop_frame (qtd : ℚ) (ticks : List Tick) :
    ∀ (l : limiter) (c : ℚ) (r : WaitResult), pollLoop l qtd c ticks = some r →
      sameButTickets r.l l := by
  induction ticks with
  | nil => intro l c r h; simp [pollLoop] at h
  | cons t ts ih =>
    intro l c r h
    unfold pollLoop at h
    by_cases hc : t.cancelled = true
    · simp [hc] at h
      subst h
      exact ⟨rfl, rfl, rfl, rfl, rfl, rfl⟩
    · simp only [hc] at h
      by_cases hp : l.tickets + t.credit ≥ qtd - c
      · simp [pollBody, hp] at h
        subst h
        exact ⟨rfl, rfl, rfl, rfl, rfl, rfl⟩
      · simp [pollBody, hp] at h
        obtain ⟨r1, hr1, rfl⟩ := h
        exact ih { l with tickets := 0 } _ r1 hr1

/-- A poll loop whose context is never cancelled returns `nil` at the first
poll at which what it found, what it has absorbed and the credits so far
reach `qtd`, and leaves the excess in the bucket. -/
theorem pollLoop_trickle (qtd : ℚ) (ticks : List Tick) :
    ∀ (l : limiter) (c : ℚ) (k : Nat),
      (∀ t ∈ ticks, t.cancelled = false) → k < ticks.length →
      (∀ j, j < k → l.tickets + c + ((ticks.take (j + 1)).map Tick.credit).sum < qtd) →
      l.tickets + c + ((ticks.take (k + 1)).map Tick.credit).sum ≥ qtd →
      ∃ taken, pollLoop l qtd c ticks =
          some ⟨{ l with tickets :=
            l.tickets + c + ((ticks.take (k + 1)).map Tick.credit).sum - qtd }, none, taken⟩ ∧
        taken.length = k + 1 := by
  induction ticks with
  | nil => intro l c k _ hk; simp at hk
  | cons t ts ih =>
    intro l c k hnc hk hlt hge
    have hc : t.cancelled = false := hnc t (List.mem_cons_self _ _)
    cases k with
    | zero =>
      have hp : l.tickets + t.credit ≥ qtd - c := by
        simp at hge
        linarith
      refine ⟨[qtd - c], ?_, rfl⟩
      simp [pollLoop, hc, pollBody, hp]
      ring
    | succ k =>
      have h0 := hlt 0 (Nat.succ_pos k)
      have hp : ¬ l.tickets + t.credit ≥ qtd - c := by
        simp at h0
        linarith
      obtain ⟨taken, hrun, hlen⟩ := ih { l with tickets := 0 } (c + (l.tickets + t.credit)) k
        (fun t1 ht1 => hnc t1 (List.mem_cons_of_mem _ ht1)) (by simpa using hk)
        (fun j hj => by
          have := hlt (j + 1) (by omega)
          simp at this ⊢
          linarith)
        (by
          simp at hge ⊢
          linarith)
      refine ⟨(l.tickets + t.credit) :: taken, ?_, by simp [hlen]⟩
      simp [pollLoop, hc, pollBody, hp, hrun]
      ring

/-- A poll loop that returns `nil` has made at least one poll, one per
amount taken, and leaves what it found, what it had absorbed and the
credits that arrived before those polls, minus `qtd`. -/
theorem pollLoop_success_state (qtd : ℚ) (ticks : List Tick) :
    ∀ (l : limiter) (c : ℚ) (r : WaitResult), pollLoop l qtd c ticks = some r →
      r.err = none →
      1 ≤ r.taken.length ∧ r.taken.length ≤ ticks.length ∧
      r.l.tickets =
        l.tickets + c + ((ticks.take r.taken.length).map Tick.credit).sum - qtd := by
  induction ticks with
  | nil => intro l c r h; simp [pollLoop] at h
  | cons t ts ih =>
    intro l c r h herr
    unfold pollLoop at h
    by_cases hc : t.cancelled = true
    · simp [hc] at h
      subst h
      simp at herr
    · simp only [hc] at h
      by_cases hp : l.tickets + t.credit ≥ qtd - c
      · simp [pollBody, hp] at h
        subst h
        refine ⟨by simp, by simp, ?_⟩
        simp
        ring
      · simp [pollBody, hp] at h
        obtain ⟨r1, hr1, rfl⟩ := h
        obtain ⟨h1, h2, h3⟩ := ih { l with tickets := 0 } _ r1 hr1 (by simpa using herr)
        refine ⟨by simp, by simpa using h2, ?_⟩
        simp only [List.length_cons, List.take_succ_cons, List.map_cons, List.sum_cons]
        rw [h3]
        simp
        ring

/-! ## Claims -/

/-- C1: when `qtd > burstMax`, `WaitN` returns the error "burst max
exceeded" at once, whatever the ticks (the context and the other
goroutines) are, subtracts nothing and leaves every field of the limiter as
it was. -/
theorem WaitN_burst_exceeded (l : limiter) (qtd : ℚ) (ticks : List Tick)
    (h : qtd > l.burstMax) :
    WaitN l qtd ticks = some ⟨l, some WaitError.burstMaxExceeded, []⟩ := by
  simp [WaitN, h]

/-- Witness of C1: a request of 11 on a fresh limiter of rate 10, with a
cancelled context. -/
theorem WaitN_burst_exceeded_witness :
    (11 : ℚ) > (NewLimiter 0 10).burstMax ∧
    WaitN (NewLimiter 0 10) 11 [⟨true, 0⟩] =
      some ⟨NewLimiter 0 10, some WaitError.burstMaxExceeded, []⟩ :=
  ⟨by norm_num [NewLimiter], WaitN_burst_exceeded _ _ _ (by norm_num [NewLimiter])⟩

/-- C2: fast path. When `qtd ≤ burstMax` and `tickets ≥ qtd`, `WaitN`
returns `nil` without consuming any tick of the poll loop, and the limiter
it leaves has `tickets - qtd` tickets. -/
theorem WaitN_fast_path (l : limiter) (qtd : ℚ) (ticks : List Tick)
    (h1 : qtd ≤ l.burstMax) (h2 : l.tickets ≥ qtd) :
    WaitN l qtd ticks = some ⟨{ l with tickets := l.tickets - qtd }, none, [qtd]⟩ := by
  simp [WaitN, not_lt.mpr h1, h2]

/-- Witness of C2: a request of 3 on a fresh limiter of rate 10. -/
theorem WaitN_fast_path_witness :
    (3 : ℚ) ≤ (NewLimiter 0 10).burstMax ∧ (NewLimiter 0 10).tickets ≥ 3 ∧
    WaitN (NewLimiter 0 10) 3 [] =
      some ⟨{ NewLimiter 0 10 with tickets := (NewLimiter 0 10).tickets - 3 }, none, [3]⟩ :=
  ⟨by norm_num [NewLimiter], by norm_num [NewLimiter],
    WaitN_fast_path _ _ _ (by norm_num [NewLimiter]) (by norm_num [NewLimiter])⟩

/-- C3: whenever `WaitN` returns `nil`, on the fast path or after any
number of polls with any credits in between, the amounts it subtracted from
`tickets` sum to exactly `qtd`, and the bucket shows it: on the fast path
the call leaves `tickets - qtd`; after `k` polls it has subtracted `k`
amounts and leaves the tickets it found plus the credits that arrived
before those `k` polls minus `qtd`. No other field is changed. -/
theorem WaitN_success_takes_qtd (l : limiter) (qtd : ℚ) (ticks : List Tick) (r : WaitResult)
    (h : WaitN l qtd ticks = some r) (herr : r.err = none) :
    r.taken.sum = qtd ∧ sameButTickets r.l l ∧
    ((l.tickets ≥ qtd ∧ r.taken = [qtd] ∧ r.l.tickets = l.tickets - qtd) ∨
      (l.tickets < qtd ∧ 1 ≤ r.taken.length ∧ r.taken.length ≤ ticks.length ∧
        r.l.tickets =
          l.tickets + ((ticks.take r.taken.length).map Tick.credit).sum - qtd)) := by
  unfold WaitN at h
  by_cases hb : qtd > l.burstMax
  · simp [hb] at h
    subst h
    simp at herr
  · by_cases hf : l.tickets ≥ qtd
    · simp [hb, hf] at h
      subst h
      exact ⟨by simp, ⟨rfl, rfl, rfl, rfl, rfl, rfl⟩, Or.inl ⟨hf, rfl, rfl⟩⟩
    · simp only [hb, hf, if_false] at h
      obtain ⟨h1, h2, h3⟩ := pollLoop_success_state qtd ticks l 0 r h herr
      refine ⟨by simpa using pollLoop_taken_sum qtd ticks l 0 r h herr,
        pollLoop_frame qtd ticks l 0 r h, Or.inr ⟨not_le.mp hf, h1, h2, ?_⟩⟩
      rw [h3]
      ring

/-- Witness of C3: a request of 5 with 1 ticket in the bucket, credits of 2
and then 4 arriving before the two polls: the call takes 3 and 2 and leaves
`1 + (2 + 4) - 5 = 2` tickets. -/
theorem WaitN_success_takes_qtd_witness :
    WaitN { NewLimiter 0 10 with tickets := 1 } 5 [⟨false, 2⟩, ⟨false, 4⟩] =
      some ⟨{ NewLimiter 0 10 with tickets := 2 }, none, [3, 2]⟩ ∧
    ([3, 2] : List ℚ).sum = 5 ∧
    sameButTickets { NewLimiter 0 10 with tickets := 2 }
      { NewLimiter 0 10 with tickets := 1 } ∧
    (((1 : ℚ) ≥ 5 ∧ ([3, 2] : List ℚ) = [5] ∧ (2 : ℚ) = 1 - 5) ∨
      ((1 : ℚ) < 5 ∧ 1 ≤ ([3, 2] : List ℚ).length ∧
        ([3, 2] : List ℚ).length ≤ ([⟨false, 2⟩, ⟨false, 4⟩] : List Tick).length ∧
        (2 : ℚ) = 1 + ((([⟨false, 2⟩, ⟨false, 4⟩] : List Tick).take
          ([3, 2] : List ℚ).length).map Tick.credit).sum - 5)) :=
  have h : WaitN { NewLimiter 0 10 with tickets := 1 } 5 [⟨false, 2⟩, ⟨false, 4⟩] =
      some ⟨{ NewLimiter 0 10 with tickets := 2 }, none, [3, 2]⟩ := by
    norm_num [WaitN, pollLoop, pollBody, NewLimiter]
  ⟨h, WaitN_success_takes_qtd _ _ _ _ h rfl⟩

/-- C4, the code at a concrete input: a fresh limiter of rate 10 (10
tickets, `burstMax` 10) runs one cycle one second after its creation. The
credit is 10, the sum 20 exceeds `burstMax`, and the cycle leaves 30
tickets, not `min 20 10 = 10`: more than `burstMax`. -/
theorem liberateCycle_exceeds_burstMax :
    (liberateCycle (NewLimiter 0 10) Second Second).tickets = 30 ∧
    min ((NewLimiter 0 10).tickets +
        (NewLimiter 0 10).rate *
          Seconds (min (Second - (NewLimiter 0 10).lastLiberation)
            (NewLimiter 0 10).maxAccumulationInterval))
      (NewLimiter 0 10).burstMax = 10 ∧
    ¬ (liberateCycle (NewLimiter 0 10) Second Second).tickets ≤
        (liberateCycle (NewLimiter 0 10) Second Second).burstMax := by
  norm_num [liberateCycle, NewLimiter, Seconds_eq, Second, defaultInterval]

/-- C5, the code at a concrete interleaving: on a fresh limiter of rate 1
(1 ticket) two goroutines call `Wait`, that is `WaitN(ctx, 1)`. Both make
the comparison `l.tickets >= qtd` without the mutex and both find
`1 >= 1`; then each takes the mutex and subtracts 1. Every step is
admissible, the states gone through have 1, 1, 1, 1, 1, 0 and then `-1`
tickets, and both calls have returned. -/
theorem two_waits_leave_negative_tickets :
    (0 : ℚ) < 1 ∧
    runAdmissible (initial 0 1)
      [.call 1, .call 1, .advance 0 false, .advance 1 false, .advance 0 false,
        .advance 0 false] ∧
    (runStates (initial 0 1)
      [.call 1, .call 1, .advance 0 false, .advance 1 false, .advance 0 false,
        .advance 0 false]).map (fun s => s.l.tickets) = [1, 1, 1, 1, 1, 0, -1] ∧
    (run (initial 0 1)
      [.call 1, .call 1, .advance 0 false, .advance 1 false, .advance 0 false,
        .advance 0 false]).l.tickets = -1 ∧
    (run (initial 0 1)
      [.call 1, .call 1, .advance 0 false, .advance 1 false, .advance 0 false,
        .advance 0 false]).waiters = [] ∧
    ¬ 0 ≤ (run (initial 0 1)
      [.call 1, .call 1, .advance 0 false, .advance 1 false, .advance 0 false,
        .advance 0 false]).l.tickets := by
  norm_num [runAdmissible, admissible, runStates, run, step, advance, initial, NewLimiter]

/-- C6: a call of `WaitN` in its poll loop (`qtd ≤ burstMax`,
`tickets < qtd`) that finds its context cancelled at the start of an
iteration returns `ctx.Err()` and gives back nothing of what it absorbed:
what it leaves in the bucket plus what it took is what it found plus the
credits, and the bucket is empty as soon as one poll was completed. With no
credit at all the call cannot succeed, and once it has completed a poll its
cancellation leaves `tickets = 0`, the tickets found on entry being lost. -/
theorem WaitN_cancel_no_refund (l : limiter) (qtd : ℚ)
    (h1 : qtd ≤ l.burstMax) (h2 : l.tickets < qtd) :
    (∀ (pre : List Tick) (x : ℚ) (rest : List Tick), WaitN l qtd pre = none →
      ∃ r, WaitN l qtd (pre ++ ⟨true, x⟩ :: rest) = some r ∧
        r.err = some WaitError.ctxErr ∧
        r.l.tickets + r.taken.sum = l.tickets + (pre.map Tick.credit).sum ∧
        (pre ≠ [] → r.l = { l with tickets := 0 }) ∧ (pre = [] → r.l = l)) ∧
    (∀ (n : Nat) (x : ℚ) (rest : List Tick),
      WaitN l qtd (List.replicate (n + 1) ⟨false, 0⟩ ++ ⟨true, x⟩ :: rest) =
        some ⟨{ l with tickets := 0 }, some WaitError.ctxErr,
          l.tickets :: List.replicate n 0⟩) := by
  have hb : ¬ qtd > l.burstMax := not_lt.mpr h1
  have hf : ¬ l.tickets ≥ qtd := not_le.mpr h2
  constructor
  · intro pre x rest h
    simp only [WaitN, hb, hf, if_false] at h ⊢
    exact pollLoop_cancel qtd x rest pre l 0 h
  · intro n x rest
    simp only [WaitN, hb, hf, if_false]
    exact pollLoop_no_credit_cancel qtd x rest n l 0 (by simpa using h2)

/-- Witness of C6: a request of 5 finds 2 tickets. Polling twice with no
credit and then cancelled, it leaves an empty bucket and the 2 tickets are
gone; polling once after a credit of 1 and then cancelled, it returns
`ctx.Err()` and what it leaves plus what it took is `2 + 1`. -/
theorem WaitN_cancel_no_refund_witness :
    WaitN { NewLimiter 0 10 with tickets := 2 } 5
        (List.replicate (1 + 1) ⟨false, 0⟩ ++ ⟨true, 0⟩ :: []) =
      some ⟨{ NewLimiter 0 10 with tickets := 0 }, some WaitError.ctxErr,
        2 :: List.replicate 1 0⟩ ∧
    ∃ r, WaitN { NewLimiter 0 10 with tickets := 2 } 5 ([⟨false, 1⟩] ++ ⟨true, 0⟩ :: []) =
        some r ∧
      r.err = some WaitError.ctxErr ∧
      r.l.tickets + r.taken.sum =
        ({ NewLimiter 0 10 with tickets := 2 } : limiter).tickets +
          (([⟨false, 1⟩] : List Tick).map Tick.credit).sum ∧
      (([⟨false, 1⟩] : List Tick) ≠ [] → r.l = { NewLimiter 0 10 with tickets := 0 }) ∧
      (([⟨false, 1⟩] : List Tick) = [] → r.l = { NewLimiter 0 10 with tickets := 2 }) :=
  ⟨(WaitN_cancel_no_refund { NewLimiter 0 10 with tickets := 2 } 5
      (by norm_num [NewLimiter]) (by norm_num)).2 1 0 [],
    (WaitN_cancel_no_refund { NewLimiter 0 10 with tickets := 2 } 5
      (by norm_num [NewLimiter]) (by norm_num)).1 [⟨false, 1⟩] 0 []
      (by norm_num [WaitN, pollLoop, pollBody, NewLimiter])⟩

/-- C7, the code at a concrete input: a fresh limiter of rate 10 runs one
cycle five seconds after its creation. The elapsed time is capped at
`maxAccumulationInterval` (one second), so the bound of the claim is
`rate * 1 = 10`, but the cycle raises `tickets` from 10 to 30, by 20. -/
theorem liberateCycle_increase_exceeds_rate_bound :
    0 ≤ (NewLimiter 0 10).rate ∧
    0 ≤ 5 * Second - (NewLimiter 0 10).lastLiberation ∧
    (liberateCycle (NewLimiter 0 10) (5 * Second) (5 * Second)).tickets -
      (NewLimiter 0 10).tickets = 20 ∧
    (NewLimiter 0 10).rate * Seconds (NewLimiter 0 10).maxAccumulationInterval = 10 := by
  norm_num [liberateCycle, NewLimiter, Seconds_eq, Second, defaultInterval]

/-- C8: `NewLimiter(ctx, rate)` gives `rate = burstMax = tickets = rate`,
`interval = maxAccumulationInterval` = one second, `tick` = five
milliseconds and `lastLiberation` = the time of the call; a call
`WaitN(ctx, burstMax)` on it returns `nil` on the fast path, whatever the
ticks, and empties the bucket. -/
theorem NewLimiter_defaults (now : Int) (rate : ℚ) (ticks : List Tick) :
    (NewLimiter now rate).rate = rate ∧
    (NewLimiter now rate).burstMax = rate ∧
    (NewLimiter now rate).interval = 1000000000 ∧
    (NewLimiter now rate).maxAccumulationInterval = (NewLimiter now rate).interval ∧
    Seconds (NewLimiter now rate).interval = 1 ∧
    (NewLimiter now rate).tick = 5000000 ∧
    Seconds (NewLimiter now rate).tick = 5 / 1000 ∧
    (NewLimiter now rate).tickets = rate ∧
    (NewLimiter now rate).tickets = (NewLimiter now rate).burstMax ∧
    (NewLimiter now rate).lastLiberation = now ∧
    WaitN (NewLimiter now rate) (NewLimiter now rate).burstMax ticks =
      some ⟨{ NewLimiter now rate with tickets := 0 }, none, [rate]⟩ := by
  refine ⟨rfl, rfl, by simp [NewLimiter, defaultInterval, Second], rfl, ?_,
    by simp [NewLimiter, defaultTick, Millisecond], ?_, rfl, rfl, rfl, ?_⟩
  · norm_num [Seconds_eq, NewLimiter, defaultInterval, Second]
  · norm_num [Seconds_eq, NewLimiter, defaultTick, Millisecond]
  · simp [WaitN, NewLimiter]

/-- C9 as stated fails: a limiter made by `NewLimiter` with rate `1/2 > 0`
has `burstMax = 1/2 < 1`, and `Wait` on it returns the burst error. -/
theorem Wait_burst_exceeded_of_small_rate :
    (0 : ℚ) < 1 / 2 ∧
    Wait (NewLimiter 0 (1 / 2)) [] =
      some ⟨NewLimiter 0 (1 / 2), some WaitError.burstMaxExceeded, []⟩ := by
  norm_num [Wait, WaitN, NewLimiter]

/-- C9 amended: `Wait(ctx)` is `WaitN(ctx, 1)`, and on every limiter with
`burstMax ≥ 1` (so on one made by `NewLimiter` with `rate ≥ 1`) a call of
`Wait` that returns gives `nil` or `ctx.Err()`, never the burst error. -/
theorem Wait_err_of_one_le_burstMax (l : limiter) (ticks : List Tick)
    (h : 1 ≤ l.burstMax) :
    Wait l ticks = WaitN l 1 ticks ∧
    ∀ r, Wait l ticks = some r → r.err = none ∨ r.err = some WaitError.ctxErr := by
  refine ⟨rfl, ?_⟩
  intro r hr
  have hb : ¬ (1 : ℚ) > l.burstMax := not_lt.mpr h
  unfold Wait WaitN at hr
  by_cases hf : l.tickets ≥ 1
  · simp [hb, hf] at hr
    subst hr
    exact Or.inl rfl
  · simp only [hb, hf, if_false] at hr
    exact pollLoop_err 1 ticks l 0 r hr

/-- Witness of C9 amended: `Wait` on an empty limiter of rate 10 whose
context is cancelled at the first poll returns `ctx.Err()`. -/
theorem Wait_err_of_one_le_burstMax_witness :
    (1 : ℚ) ≤ ({ NewLimiter 0 10 with tickets := 0 } : limiter).burstMax ∧
    Wait { NewLimiter 0 10 with tickets := 0 } [⟨true, 0⟩] =
      some ⟨{ NewLimiter 0 10 with tickets := 0 }, some WaitError.ctxErr, []⟩ ∧
    ((some WaitError.ctxErr : Option WaitError) = none ∨
      (some WaitError.ctxErr : Option WaitError) = some WaitError.ctxErr) :=
  have h : Wait { NewLimiter 0 10 with tickets := 0 } [⟨true, 0⟩] =
      some ⟨{ NewLimiter 0 10 with tickets := 0 }, some WaitError.ctxErr, []⟩ := by
    norm_num [Wait, WaitN, pollLoop, NewLimiter]
  ⟨by norm_num [NewLimiter], h,
    (Wait_err_of_one_le_burstMax _ _ (by norm_num [NewLimiter])).2 _ h⟩

/-- C10: each setter sets its own field to the value given, so that the
matching getter returns it, and leaves every other field as it was; no
setter changes `tickets` or `lastLiberation`, and `SetBurstMax` does not
truncate `tickets`, whatever the new cap is. -/
theorem setters_frame (l : limiter) (v : ℚ) (d : Int) :
    (GetRate (SetRate l v) = v ∧
      GetBurstMax (SetRate l v) = GetBurstMax l ∧
      GetInterval (SetRate l v) = GetInterval l ∧
      GetMaxAccumulationInterval (SetRate l v) = GetMaxAccumulationInterval l ∧
      GetTick (SetRate l v) = GetTick l ∧
      GetTickets (SetRate l v) = GetTickets l ∧
      GetLastLiberation (SetRate l v) = GetLastLiberation l) ∧
    (GetRate (SetBurstMax l v) = GetRate l ∧
      GetBurstMax (SetBurstMax l v) = v ∧
      GetInterval (SetBurstMax l v) = GetInterval l ∧
      GetMaxAccumulationInterval (SetBurstMax l v) = GetMaxAccumulationInterval l ∧
      GetTick (SetBurstMax l v) = GetTick l ∧
      GetTickets (SetBurstMax l v) = GetTickets l ∧
      GetLastLiberation (SetBurstMax l v) = GetLastLiberation l) ∧
    (GetRate (SetInterval l d) = GetRate l ∧
      GetBurstMax (SetInterval l d) = GetBurstMax l ∧
      GetInterval (SetInterval l d) = d ∧
      GetMaxAccumulationInterval (SetInterval l d) = GetMaxAccumulationInterval l ∧
      GetTick (SetInterval l d) = GetTick l ∧
      GetTickets (SetInterval l d) = GetTickets l ∧
      GetLastLiberation (SetInterval l d) = GetLastLiberation l) ∧
    (GetRate (SetMaxAccumulationInterval l d) = GetRate l ∧
      GetBurstMax (SetMaxAccumulationInterval l d) = GetBurstMax l ∧
      GetInterval (SetMaxAccumulationInterval l d) = GetInterval l ∧
      GetMaxAccumulationInterval (SetMaxAccumulationInterval l d) = d ∧
      GetTick (SetMaxAccumulationInterval l d) = GetTick l ∧
      GetTickets (SetMaxAccumulationInterval l d) = GetTickets l ∧
      GetLastLiberation (SetMaxAccumulationInterval l d) = GetLastLiberation l) ∧
    (GetRate (SetTick l d) = GetRate l ∧
      GetBurstMax (SetTick l d) = GetBurstMax l ∧
      GetInterval (SetTick l d) = GetInterval l ∧
      GetMaxAccumulationInterval (SetTick l d) = GetMaxAccumulationInterval l ∧
      GetTick (SetTick l d) = d ∧
      GetTickets (SetTick l d) = GetTickets l ∧
      GetLastLiberation (SetTick l d) = GetLastLiberation l) := by
  simp [SetRate, SetBurstMax, SetInterval, SetMaxAccumulationInterval, SetTick, GetRate,
    GetBurstMax, GetInterval, GetMaxAccumulationInterval, GetTick, GetTickets,
    GetLastLiberation]

/-- C11 as stated fails: `NewLimiter(ctx, 10).SetRate(5).SetBurstMax(20)
.SetTick(10ms)` keeps the 10 tickets of its construction, while a limiter
constructed with rate 5, burst cap 20 and tick 10ms starts with 5 tickets
(neither is it 20, the cap). A call `WaitN(ctx, 8)` returns at once on the
first and has to poll on the second. -/
theorem setter_chain_keeps_initial_tickets :
    (0 : ℚ) < 10 ∧
    (SetTick (SetBurstMax (SetRate (NewLimiter 0 10) 5) 20) (10 * Millisecond)).tickets = 10 ∧
    (specDirectLimiter 0 5 20 (10 * Millisecond)).tickets = 5 ∧
    SetTick (SetBurstMax (SetRate (NewLimiter 0 10) 5) 20) (10 * Millisecond) ≠
      specDirectLimiter 0 5 20 (10 * Millisecond) ∧
    (WaitN (SetTick (SetBurstMax (SetRate (NewLimiter 0 10) 5) 20) (10 * Millisecond)) 8 []
      ).isSome = true ∧
    (WaitN (specDirectLimiter 0 5 20 (10 * Millisecond)) 8 []).isSome = false := by
  refine ⟨by norm_num, rfl, rfl, ?_, ?_, ?_⟩
  · intro h
    have ht := congrArg limiter.tickets h
    norm_num [SetTick, SetBurstMax, SetRate, NewLimiter, specDirectLimiter] at ht
  · norm_num [WaitN, SetTick, SetBurstMax, SetRate, NewLimiter]
  · norm_num [WaitN, pollLoop, specDirectLimiter, NewLimiter]

/-- C11 amended: `NewLimiter(ctx, r).SetRate(r2).SetBurstMax(b).SetTick(t)`
is the limiter constructed directly with rate `r2`, burst cap `b` and tick
`t` except for `tickets`, which stays `r`, the rate of the construction;
the two limiters are the same state exactly when `r2 = r`. -/
theorem setter_chain_eq_direct (now : Int) (r r2 b : ℚ) (t : Int) :
    SetTick (SetBurstMax (SetRate (NewLimiter now r) r2) b) t =
      { specDirectLimiter now r2 b t with tickets := r } ∧
    sameButTickets (SetTick (SetBurstMax (SetRate (NewLimiter now r) r2) b) t)
      (specDirectLimiter now r2 b t) ∧
    (SetTick (SetBurstMax (SetRate (NewLimiter now r) r2) b) t).tickets = r ∧
    (specDirectLimiter now r2 b t).tickets = r2 ∧
    (SetTick (SetBurstMax (SetRate (NewLimiter now r) r2) b) t =
      specDirectLimiter now r2 b t ↔ r2 = r) := by
  refine ⟨rfl, ⟨rfl, rfl, rfl, rfl, rfl, rfl⟩, rfl, rfl, ?_⟩
  constructor
  · intro h
    have ht := congrArg limiter.tickets h
    simpa [SetTick, SetBurstMax, SetRate, NewLimiter, specDirectLimiter] using ht.symm
  · intro h
    subst h
    rfl

/-- C13: a cycle of `liberate` whose sum
`tickets + rate * min(elapsed, maxAccumulationInterval).seconds` does not
exceed `burstMax` sets `tickets` to that sum and `lastLiberation` to the
clock, and changes nothing else. -/
theorem liberateCycle_no_overflow (l : limiter) (now now2 : Int)
    (h : l.tickets + l.rate * Seconds (min (now - l.lastLiberation) l.maxAccumulationInterval)
      ≤ l.burstMax) :
    liberateCycle l now now2 =
      { l with
        tickets := l.tickets +
          l.rate * Seconds (min (now - l.lastLiberation) l.maxAccumulationInterval)
        lastLiberation := now2 } := by
  have hmin : (if now - l.lastLiberation > l.maxAccumulationInterval
      then l.maxAccumulationInterval else now - l.lastLiberation) =
      min (now - l.lastLiberation) l.maxAccumulationInterval := by
    split_ifs with hgt
    · exact (min_eq_right (le_of_lt hgt)).symm
    · exact (min_eq_left (not_lt.mp hgt)).symm
  unfold liberateCycle
  simp only [hmin, not_lt.mpr h, if_false]

/-- Witness of C13: an empty limiter of rate 10 runs a cycle three seconds
after its last one; the elapsed time counts for one second and the cycle
leaves 10 tickets. -/
theorem liberateCycle_no_overflow_witness :
    liberateCycle { NewLimiter 0 10 with tickets := 0 } (3 * Second) (3 * Second + 1) =
      { NewLimiter 0 10 with
        tickets := 0 + 10 * Seconds (min (3 * Second - 0) defaultInterval)
        lastLiberation := 3 * Second + 1 } ∧
    (0 : ℚ) + 10 * Seconds (min (3 * Second - 0) defaultInterval) = 10 :=
  ⟨liberateCycle_no_overflow { NewLimiter 0 10 with tickets := 0 } (3 * Second)
      (3 * Second + 1)
      (by norm_num [NewLimiter, Seconds_eq, Second, defaultInterval]),
    by norm_num [Seconds_eq, Second, defaultInterval]⟩

/-- C14: whatever a call of `WaitN` or `Wait` returns (`nil`, the burst
error or `ctx.Err()`), the limiter it leaves has the `rate`, `burstMax`,
`interval`, `maxAccumulationInterval`, `tick` and `lastLiberation` it had
before the call. -/
theorem WaitN_frame (l : limiter) (qtd : ℚ) (ticks : List Tick) (r : WaitResult)
    (h : WaitN l qtd ticks = some r) :
    sameButTickets r.l l ∧
    ∀ r1, Wait l ticks = some r1 → sameButTickets r1.l l := by
  have key : ∀ (q : ℚ) (r0 : WaitResult), WaitN l q ticks = some r0 → sameButTickets r0.l l := by
    intro q r0 h0
    unfold WaitN at h0
    by_cases hb : q > l.burstMax
    · simp [hb] at h0
      subst h0
      exact ⟨rfl, rfl, rfl, rfl, rfl, rfl⟩
    · by_cases hf : l.tickets ≥ q
      · simp [hb, hf] at h0
        subst h0
        exact ⟨rfl, rfl, rfl, rfl, rfl, rfl⟩
      · simp only [hb, hf, if_false] at h0
        exact pollLoop_frame q ticks l 0 r0 h0
  exact ⟨key qtd r h, fun r1 h1 => key 1 r1 h1⟩

/-- Witness of C14: a request of 5 that finds 1 ticket and succeeds at its
second poll leaves every field but `tickets` as it was. -/
theorem WaitN_frame_witness :
    sameButTickets
      (⟨{ NewLimiter 0 10 with tickets := 1 }, none, [3, 2]⟩ : WaitResult).l
      { NewLimiter 0 10 with tickets := 1 } :=
  (WaitN_frame { NewLimiter 0 10 with tickets := 1 } 5 [⟨false, 2⟩, ⟨false, 3⟩] _
    (by norm_num [WaitN, pollLoop, pollBody, NewLimiter])).1

/-- C15: each getter returns its field of the limiter; a getter is a
function of the state alone and returns no new state, so two calls on the
same state return the same value. -/
theorem getters_read_fields (l : limiter) :
    GetRate l = l.rate ∧ GetBurstMax l = l.burstMax ∧ GetInterval l = l.interval ∧
    GetMaxAccumulationInterval l = l.maxAccumulationInterval ∧ GetTickets l = l.tickets ∧
    GetLastLiberation l = l.lastLiberation ∧ GetTick l = l.tick :=
  ⟨rfl, rfl, rfl, rfl, rfl, rfl, rfl⟩

/-- C16: with a context that is already cancelled, `WaitN` returns the
burst error when `qtd > burstMax`; it returns `nil` and takes `qtd` when
`qtd ≤ burstMax` and `tickets ≥ qtd`; it returns `ctx.Err()` and leaves the
limiter as it was when `qtd ≤ burstMax` and `tickets < qtd`, and in no other
case does it return `ctx.Err()`. -/
theorem WaitN_cancelled_ctx (l : limiter) (qtd x : ℚ) (rest : List Tick) :
    (qtd > l.burstMax →
      WaitN l qtd (⟨true, x⟩ :: rest) = some ⟨l, some WaitError.burstMaxExceeded, []⟩) ∧
    (qtd ≤ l.burstMax → l.tickets ≥ qtd →
      WaitN l qtd (⟨true, x⟩ :: rest) =
        some ⟨{ l with tickets := l.tickets - qtd }, none, [qtd]⟩) ∧
    (qtd ≤ l.burstMax → l.tickets < qtd →
      WaitN l qtd (⟨true, x⟩ :: rest) = some ⟨l, some WaitError.ctxErr, []⟩) ∧
    ((∃ r, WaitN l qtd (⟨true, x⟩ :: rest) = some r ∧ r.err = some WaitError.ctxErr) ↔
      qtd ≤ l.burstMax ∧ l.tickets < qtd) := by
  have h1 : qtd > l.burstMax →
      WaitN l qtd (⟨true, x⟩ :: rest) = some ⟨l, some WaitError.burstMaxExceeded, []⟩ := by
    intro h
    simp [WaitN, h]
  have h2 : qtd ≤ l.burstMax → l.tickets ≥ qtd →
      WaitN l qtd (⟨true, x⟩ :: rest) =
        some ⟨{ l with tickets := l.tickets - qtd }, none, [qtd]⟩ := by
    intro hb hf
    simp [WaitN, not_lt.mpr hb, hf]
  have h3 : qtd ≤ l.burstMax → l.tickets < qtd →
      WaitN l qtd (⟨true, x⟩ :: rest) = some ⟨l, some WaitError.ctxErr, []⟩ := by
    intro hb hf
    simp [WaitN, not_lt.mpr hb, not_le.mpr hf, pollLoop]
  refine ⟨h1, h2, h3, ?_, ?_⟩
  · rintro ⟨r, hr, herr⟩
    by_cases hb : qtd > l.burstMax
    · rw [h1 hb] at hr
      cases hr
      simp at herr
    · by_cases hf : l.tickets ≥ qtd
      · rw [h2 (not_lt.mp hb) hf] at hr
        cases hr
        simp at herr
      · exact ⟨not_lt.mp hb, not_le.mp hf⟩
  · rintro ⟨hb, hf⟩
    exact ⟨_, h3 hb hf, rfl⟩

/-- Witness of C16: on a fresh limiter of rate 10 emptied to 2 tickets and
a cancelled context, a request of 11 gets the burst error, a request of 2
succeeds and a request of 5 gets `ctx.Err()`. -/
theorem WaitN_cancelled_ctx_witness :
    WaitN { NewLimiter 0 10 with tickets := 2 } 11 (⟨true, 0⟩ :: []) =
      some ⟨{ NewLimiter 0 10 with tickets := 2 }, some WaitError.burstMaxExceeded, []⟩ ∧
    WaitN { NewLimiter 0 10 with tickets := 2 } 2 (⟨true, 0⟩ :: []) =
      some ⟨{ NewLimiter 0 10 with tickets := 2 - 2 }, none, [2]⟩ ∧
    WaitN { NewLimiter 0 10 with tickets := 2 } 5 (⟨true, 0⟩ :: []) =
      some ⟨{ NewLimiter 0 10 with tickets := 2 }, some WaitError.ctxErr, []⟩ :=
  ⟨(WaitN_cancelled_ctx { NewLimiter 0 10 with tickets := 2 } 11 0 []).1
      (by norm_num [NewLimiter]),
    (WaitN_cancelled_ctx { NewLimiter 0 10 with tickets := 2 } 2 0 []).2.1
      (by norm_num [NewLimiter]) (by norm_num),
    (WaitN_cancelled_ctx { NewLimiter 0 10 with tickets := 2 } 5 0 []).2.2.1
      (by norm_num [NewLimiter]) (by norm_num)⟩

/-- C17: on a limiter with `tickets ≥ 0` and `burstMax ≥ 0` a request
`qtd ≤ 0` is not rejected: `WaitN` returns `nil` on the fast path and
leaves `tickets - qtd`, which is at least `tickets` and is not capped at
`burstMax`. -/
theorem WaitN_nonpositive_qtd (l : limiter) (qtd : ℚ) (ticks : List Tick)
    (ht : 0 ≤ l.tickets) (hb : 0 ≤ l.burstMax) (hq : qtd ≤ 0) :
    WaitN l qtd ticks = some ⟨{ l with tickets := l.tickets - qtd }, none, [qtd]⟩ ∧
    l.tickets - qtd ≥ l.tickets ∧
    l.tickets - qtd = l.tickets + |qtd| := by
  have h1 : ¬ qtd > l.burstMax := not_lt.mpr (le_trans hq hb)
  have h2 : l.tickets ≥ qtd := le_trans hq ht
  refine ⟨by simp [WaitN, h1, h2], by linarith, ?_⟩
  rw [abs_of_nonpos hq]
  ring

/-- Witness of C17: a request of `-3` on a fresh limiter of rate 10 leaves
13 tickets, above the burst cap of 10. -/
theorem WaitN_nonpositive_qtd_witness :
    WaitN (NewLimiter 0 10) (-3) [] =
      some ⟨{ NewLimiter 0 10 with tickets := (NewLimiter 0 10).tickets - (-3) }, none, [-3]⟩ ∧
    (NewLimiter 0 10).tickets - (-3) = 13 ∧ (13 : ℚ) > (NewLimiter 0 10).burstMax :=
  ⟨(WaitN_nonpositive_qtd (NewLimiter 0 10) (-3) [] (by norm_num [NewLimiter])
      (by norm_num [NewLimiter]) (by norm_num)).1,
    by norm_num [NewLimiter], by norm_num [NewLimiter]⟩

/-- C12: a call of `WaitN` in its poll loop (`qtd ≤ burstMax`,
`tickets < qtd`) whose context is never cancelled returns `nil` at the first
poll `k` at which the tickets found on entry plus the credits that arrived
before polls `1 .. k` reach `qtd`; it has then taken `qtd` in `k` parts and
leaves the excess of that sum over `qtd`. Hence the call returns `nil` as
soon as the credits of the ticks reach `qtd - tickets` at some poll. -/
theorem WaitN_trickle (l : limiter) (qtd : ℚ) (ticks : List Tick)
    (hb : qtd ≤ l.burstMax) (h0 : l.tickets < qtd)
    (hnc : ∀ t ∈ ticks, t.cancelled = false) :
    (∀ k, k < ticks.length →
      (∀ j, j < k → l.tickets + ((ticks.take (j + 1)).map Tick.credit).sum < qtd) →
      l.tickets + ((ticks.take (k + 1)).map Tick.credit).sum ≥ qtd →
      ∃ taken, WaitN l qtd ticks =
          some ⟨{ l with tickets :=
            l.tickets + ((ticks.take (k + 1)).map Tick.credit).sum - qtd }, none, taken⟩ ∧
        taken.length = k + 1 ∧ taken.sum = qtd) ∧
    ((∃ k, k < ticks.length ∧
        l.tickets + ((ticks.take (k + 1)).map Tick.credit).sum ≥ qtd) →
      ∃ r, WaitN l qtd ticks = some r ∧ r.err = none ∧ r.taken.sum = qtd) := by
  have hnb : ¬ qtd > l.burstMax := not_lt.mpr hb
  have hnf : ¬ l.tickets ≥ qtd := not_le.mpr h0
  have first : ∀ k, k < ticks.length →
      (∀ j, j < k → l.tickets + ((ticks.take (j + 1)).map Tick.credit).sum < qtd) →
      l.tickets + ((ticks.take (k + 1)).map Tick.credit).sum ≥ qtd →
      ∃ taken, WaitN l qtd ticks =
          some ⟨{ l with tickets :=
            l.tickets + ((ticks.take (k + 1)).map Tick.credit).sum - qtd }, none, taken⟩ ∧
        taken.length = k + 1 ∧ taken.sum = qtd := by
    intro k hk hlt hge
    obtain ⟨taken, hrun, hlen⟩ := pollLoop_trickle qtd ticks l 0 k hnc hk
      (fun j hj => by simpa using hlt j hj) (by simpa using hge)
    have hsum := pollLoop_taken_sum qtd ticks l 0 _ hrun rfl
    refine ⟨taken, ?_, hlen, by simpa using hsum⟩
    simp only [WaitN, hnb, hnf, if_false]
    simpa using hrun
  refine ⟨first, ?_⟩
  intro hex
  obtain ⟨hk, hge⟩ := Nat.find_spec hex
  obtain ⟨taken, hrun, -, hsum⟩ := first (Nat.find hex) hk
    (fun j hj => by
      have hnot := Nat.find_min hex hj
      have hjl : j < ticks.length := lt_trans hj hk
      exact not_le.mp (fun hle => hnot ⟨hjl, hle⟩))
    hge
  exact ⟨_, hrun, rfl, hsum⟩

/-- Witness of C12: a request of 5 finds 1 ticket; credits of 2, 3 and 4
arrive before the polls. The call returns at the second poll, when
`1 + 2 + 3 ≥ 5`, and leaves 1 ticket. -/
theorem WaitN_trickle_witness :
    (∃ taken, WaitN { NewLimiter 0 10 with tickets := 1 } 5
          [⟨false, 2⟩, ⟨false, 3⟩, ⟨false, 4⟩] =
        some ⟨{ NewLimiter 0 10 with tickets :=
          1 + ((([⟨false, 2⟩, ⟨false, 3⟩, ⟨false, 4⟩] : List Tick).take (1 + 1)).map
            Tick.credit).sum - 5 }, none, taken⟩ ∧
      taken.length = 1 + 1 ∧ taken.sum = 5) ∧
    (1 : ℚ) + ((([⟨false, 2⟩, ⟨false, 3⟩, ⟨false, 4⟩] : List Tick).take (1 + 1)).map
      Tick.credit).sum - 5 = 1 :=
  ⟨(WaitN_trickle { NewLimiter 0 10 with tickets := 1 } 5
      [⟨false, 2⟩, ⟨false, 3⟩, ⟨false, 4⟩]
      (by norm_num [NewLimiter]) (by norm_num) (by simp)).1 1 (by simp)
      (fun j hj => by
        have hj0 : j = 0 := by omega
        subst hj0
        norm_num)
      (by norm_num),
    by norm_num⟩

/-- C18, the code at a concrete interleaving: a fresh limiter of rate 10 is
emptied by a call `WaitN(ctx, 10)`; a call `WaitN(ctx, 5)` enters its poll
loop, sleeps, and finds `0 >= 5 - 0` false without the mutex; before it
takes the mutex a cycle of `liberate` credits 10 tickets; the call then
absorbs the 10 tickets it reads under the mutex. No state gone through has
negative tickets, and the call is back at its `select` with
`counterTickets = 10`, which is not below `qtd = 5`: its remainder
`qtd - counterTickets` is `-5`. -/
theorem absorb_after_late_credit_exceeds_qtd :
    runAdmissible (initial 0 10)
      [.call 10, .advance 0 false, .advance 0 false, .call 5, .advance 0 false,
        .advance 0 false, .advance 0 false, .liberate Second Second, .advance 0 false] ∧
    (runStates (initial 0 10)
      [.call 10, .advance 0 false, .advance 0 false, .call 5, .advance 0 false,
        .advance 0 false, .advance 0 false, .liberate Second Second,
        .advance 0 false]).map (fun s => s.l.tickets) = [10, 10, 10, 0, 0, 0, 0, 0, 10, 0] ∧
    (run (initial 0 10)
      [.call 10, .advance 0 false, .advance 0 false, .call 5, .advance 0 false,
        .advance 0 false, .advance 0 false]).waiters = [⟨5, 0, .absorbLocked⟩] ∧
    (run (initial 0 10)
      [.call 10, .advance 0 false, .advance 0 false, .call 5, .advance 0 false,
        .advance 0 false, .advance 0 false, .liberate Second Second,
        .advance 0 false]).waiters = [⟨5, 10, .loop⟩] ∧
    ¬ (10 : ℚ) < 5 ∧ (5 : ℚ) - 10 = -5 := by
  norm_num [runAdmissible, admissible, runStates, run, step, advance, initial, NewLimiter,
    liberateCycle, Seconds_eq, Second, defaultInterval]

end RateLimiter
